import Mathlib

/-!
Verification development for a peer-to-peer content-addressed file
distribution node written in Rust.  The Rust sources are shallowly
embedded: byte sequences are `List Nat`, Rust `String`s are modelled by
their UTF-8 byte sequences (`Str`), fallible operations return `Option`
or `Except`, and a panic (`unwrap` on an error) is modelled as `none`.
-/

namespace DistFS

/-- Rust `String`, modelled by its UTF-8 byte sequence. -/
abbrev Str := List Nat

/-- Rust `Vec<u8>`. -/
abbrev Bytes := List Nat

/-! ## bincode serialization (bincode 1.x `serialize`/`deserialize`)

The crate serializes `Payload` and `MessageData` with `bincode`, whose
legacy configuration writes fixed-width little-endian integers: `u64`
length prefixes for strings and byte vectors, and a `u32` variant tag
for enums. -/

/-- Little-endian fixed-width encoding of `n` on `w` bytes. -/
def toLE : Nat → Nat → List Nat
  | 0, _ => []
  | w + 1, n => n % 256 :: toLE w (n / 256)

/-- Read a `w`-byte little-endian integer from the front of a buffer. -/
def decFixedLE : Nat → Bytes → Option (Nat × Bytes)
  | 0, rest => some (0, rest)
  | _ + 1, [] => none
  | w + 1, b :: rest =>
    match decFixedLE w rest with
    | none => none
    | some (v, r) => some (b + 256 * v, r)

/-- bincode encoding of a byte vector / string: `u64` length, then the bytes. -/
def encBytes (b : Bytes) : Bytes := toLE 8 b.length ++ b

/-- bincode decoding of a byte vector / string. -/
def decBytes (bs : Bytes) : Option (Bytes × Bytes) :=
  match decFixedLE 8 bs with
  | none => none
  | some (len, r) => if len ≤ r.length then some (r.take len, r.drop len) else none

/-- `enum MessageType { Store }` from `src/server/mod.rs`. -/
inductive MessageType where
  | Store
deriving DecidableEq, Repr

/-- serde/bincode variant index of a `MessageType` value (`Store = 0`). -/
def MessageType.tag : MessageType → Nat
  | .Store => 0

/-- bincode decoding of a `MessageType`: a `u32` variant tag. -/
def decTag (bs : Bytes) : Option (MessageType × Bytes) :=
  match decFixedLE 4 bs with
  | none => none
  | some (t, r) => if t = 0 then some (.Store, r) else none

/-- `struct Payload { from, msg_type, msg }` from `src/server/mod.rs`
(the on-wire envelope).  The Rust field `from` is a Lean keyword, so it
is named `fromAddr` here. -/
structure Payload where
  fromAddr : Str
  msg_type : MessageType
  msg : Bytes
deriving DecidableEq, Repr

/-- `Payload::to_buffer`: `bincode::serialize(&self).unwrap()`. -/
def Payload.to_buffer (p : Payload) : Bytes :=
  encBytes p.fromAddr ++ toLE 4 p.msg_type.tag ++ encBytes p.msg

/-- `Payload::from_buffer` body: `bincode::deserialize(&buf)`.  The
source `unwrap`s the result; the panic is modelled at the call site by
propagating `none`. -/
def Payload.from_buffer (buf : Bytes) : Option Payload :=
  match decBytes buf with
  | none => none
  | some (f, r1) =>
    match decTag r1 with
    | none => none
    | some (t, r2) =>
      match decBytes r2 with
      | none => none
      | some (m, _) => some ⟨f, t, m⟩

/-- `struct MessageData { key, data }` from `src/server/mod.rs`. -/
structure MessageData where
  key : Str
  data : Bytes
deriving DecidableEq, Repr

/-- `MessageData::to_buffer`: `bincode::serialize(&self).unwrap()`. -/
def MessageData.to_buffer (d : MessageData) : Bytes :=
  encBytes d.key ++ encBytes d.data

/-- `MessageData::from_buffer` body: `bincode::deserialize(&buf)`;
the source `unwrap`s, modelled at the call site. -/
def MessageData.from_buffer (buf : Bytes) : Option MessageData :=
  match decBytes buf with
  | none => none
  | some (k, r1) =>
    match decBytes r1 with
    | none => none
    | some (d, _) => some ⟨k, d⟩

/-! ## Store (`src/store/mod.rs`)

The filesystem is modelled as a map from full paths to the outcome of
`fs::File::open` at that path: `.ok content` for a readable file,
`.error e` when opening fails (absent file, permission error, ...). -/

/-- The subset of `io::ErrorKind` relevant to the store paths. -/
inductive ErrorKind where
  | notFound
  | permissionDenied
  | otherErr
deriving DecidableEq, Repr

/-- Filesystem state: what `fs::File::open` yields at each path. -/
abbrev Fs := Str → Except ErrorKind Bytes

/-- `StoreOpts { root_dir, filename_transform }`. -/
structure StoreOpts where
  root_dir : Str
  filename_transform : Str → Str

/-- `struct Store { opts }`. -/
structure Store where
  opts : StoreOpts

/-- `Store::fullpath`: `format!("{}/{}", root_dir, transform(key))`;
`47` is the byte of `/`. -/
def Store.fullpath (s : Store) (key : Str) : Str :=
  s.opts.root_dir ++ [47] ++ s.opts.filename_transform key

/-- `Store::write` / `write_stream` on the success path: `create_dir_all`,
`File::create(fullpath(key))` (truncate) and `io::copy` of the whole
reader leave the file at `fullpath(key)` holding exactly `data`. -/
def Store.write (s : Store) (fs : Fs) (key : Str) (data : Bytes) : Fs :=
  fun p => if p = s.fullpath key then .ok data else fs p

/-- `Store::read_stream`: open `fullpath(key)`; any open error is mapped
to `ErrorKind::NotFound` (`Err(_) => return Err(ErrorKind::NotFound)`). -/
def Store.read_stream (s : Store) (fs : Fs) (key : Str) : Except ErrorKind Bytes :=
  match fs (s.fullpath key) with
  | .error _ => .error .notFound
  | .ok content => .ok content

/-- `Store::read`: `read_stream(key)?` then `read_to_end` of the opened
stream, which returns the file bytes. -/
def Store.read (s : Store) (fs : Fs) (key : Str) : Except ErrorKind Bytes :=
  match s.read_stream fs key with
  | .error e => .error e
  | .ok content => .ok content

/-! ## `read_all_from_stream` (`src/lib.rs`) and the default decoder

A stream is modelled by its remaining byte sequence; a call
`r.read(&mut buf)` returns the next `min(buf.len(), remaining)` bytes,
as a cursor/slice reader does (the repository drives the decoder and
`store_data` from in-memory slices).  The source keeps the read buffer
in `buf`, whose length starts at 1024 and becomes 0 after `buf.clear()`. -/

/-- The loop of `read_all_from_stream`: read into a buffer of length
`bufLen`; `Ok(0)` breaks; otherwise the chunk is appended to the result
and `buf.clear()` resets the buffer length to 0 before continuing. -/
def readAllGo (bufLen : Nat) (remaining acc : Bytes) : Bytes :=
  if h : (remaining.take bufLen).length = 0 then acc
  else readAllGo 0 (remaining.drop bufLen) (acc ++ remaining.take bufLen)
termination_by remaining.length
decreasing_by
  simp only [List.length_take] at h ⊢
  simp only [List.length_drop]
  omega

/-- `read_all_from_stream`: starts with `let mut buf = vec![0; 1024]`. -/
def read_all_from_stream (content : Bytes) : Bytes :=
  readAllGo 1024 content []

/-- `DefaultDecoder::decode`: sets `msg.payload` to
`read_all_from_stream(r).unwrap()`. -/
def DefaultDecoder.decode (content : Bytes) : Bytes :=
  read_all_from_stream content

/-! ## TCP transport (`src/transport/tcp.rs`) -/

/-- Observable state of a `TcpTransport`: whether the accept loop runs,
whether the listener socket is open, the peer registry (remote address,
connection still open), and the fan-in message queue. -/
structure TransportState where
  accepting : Bool
  listenerOpen : Bool
  peers : List (Str × Bool)
  queue : List Bytes
  queueOpen : Bool
deriving DecidableEq, Repr

/-- `TcpTransport::close`: the body is `// nothing to do here` followed
by `Ok(())`; no state is touched. -/
def TcpTransport.close (st : TransportState) : TransportState × Bool :=
  (st, true)

/-- The loop of `TcpTransport::try_dial`.  `dialOk i` is the outcome of
the `i`-th call to `dial`; the result is (success, number of dial
attempts made, list of sleep durations in seconds, in order).
`attempts` is the source's counter, compared against `max_attemps`;
`backoff` starts at 1 second and is doubled after each sleep. -/
def tryDialGo (dialOk : Nat → Bool) (max_attemps attempts backoff dials : Nat)
    (sleeps : List Nat) : Bool × Nat × List Nat :=
  if dialOk dials then (true, dials + 1, sleeps)
  else if max_attemps ≤ attempts then (false, dials + 1, sleeps)
  else tryDialGo dialOk max_attemps (attempts + 1) (backoff * 2) (dials + 1)
    (sleeps ++ [backoff])
termination_by max_attemps - attempts
decreasing_by omega

/-- `TcpTransport::try_dial(addr, max_attemps)`:
`backoff = 1s; attempts = 0;` then the retry loop. -/
def try_dial (dialOk : Nat → Bool) (max_attemps : Nat) : Bool × Nat × List Nat :=
  tryDialGo dialOk max_attemps 0 1 0 []

/-! ## File server (`src/server/mod.rs`)

The node-level peer mirror `peers: Mutex<HashMap<SocketAddr, Peer>>` is
modelled by its key list in insertion order; `sendOk p` is the outcome
of `peer.send` on the peer at address `p`; `writeOk` is the outcome of
the underlying filesystem write.  A panic (a failed `unwrap`) is
modelled as `none`. -/

/-- Observable state of a `FileServer`: its listen address, the peer
mirror key set, and the store's filesystem. -/
structure NodeState where
  addr : Str
  peers : List Str
  fs : Fs

/-- `HashMap::insert` on the mirror, seen on the key set: a fresh key is
added, an existing key keeps its entry (the value is replaced). -/
def insertPeer (a : Str) (l : List Str) : List Str :=
  if a ∈ l then l else l ++ [a]

/-- The loop of `FileServer::broadcast`: send the serialized payload to
each peer in turn; `p.send(&payload_buffer).unwrap()` panics (`none`) on
the first failing send.  On success, returns the (address, bytes) pairs
sent, in order. -/
def broadcastGo (sendOk : Str → Bool) (buf : Bytes) :
    List Str → Option (List (Str × Bytes))
  | [] => some []
  | p :: rest =>
    if sendOk p then
      match broadcastGo sendOk buf rest with
      | none => none
      | some sent => some ((p, buf) :: sent)
    else none

/-- `FileServer::broadcast(payload)`: serializes the payload once and
iterates the mirror. -/
def FileServer.broadcast (sendOk : Str → Bool) (st : NodeState) (payload : Payload) :
    Option (List (Str × Bytes)) :=
  broadcastGo sendOk payload.to_buffer st.peers

/-- `FileServer::store_data(key, r)`: a single `r.read` into a
1024-byte buffer yields the first `min 1024` bytes of the reader's
content; on a successful store write the envelope
`Payload { from: addr, msg_type: Store, msg: MessageData{key, buf} }`
is broadcast; a write error is logged and nothing is broadcast. -/
def FileServer.store_data (sendOk : Str → Bool) (writeOk : Bool) (s : Store)
    (st : NodeState) (key : Str) (content : Bytes) :
    Option (NodeState × List (Str × Bytes)) :=
  if writeOk then
    match FileServer.broadcast sendOk
        { st with fs := s.write st.fs key (content.take 1024) }
        ⟨st.addr, .Store, (MessageData.mk key (content.take 1024)).to_buffer⟩ with
    | none => none
    | some sent =>
      some ({ st with fs := s.write st.fs key (content.take 1024) }, sent)
  else some (st, [])

/-- `FileServer::handle_message(msg)`: deserialize the payload
(`from_buffer` + `unwrap`), dispatch on its type; for `Store`,
deserialize the body and `store.write(..).unwrap()`.  Every `unwrap` of
an error is a panic, modelled as `none`. -/
def FileServer.handle_message (writeOk : Bool) (s : Store) (fs : Fs)
    (payloadBuf : Bytes) : Option Fs :=
  match Payload.from_buffer payloadBuf with
  | none => none
  | some p =>
    match p.msg_type with
    | .Store =>
      match MessageData.from_buffer p.msg with
      | none => none
      | some md => if writeOk then some (s.write fs md.key md.data) else none

/-- The operations of a running node that are observable on `NodeState`. -/
inductive NodeOp where
  | onPeer (addr : Str)
  | storeDataOp (key : Str) (content : Bytes)
  | handleMsg (payloadBuf : Bytes)
  | shutdownOp
  | consumeTimeout

/-- One node operation.  `onPeer` is the callback installed by
`register_on_peer_cb`, which inserts the peer into the mirror and
returns true; `storeDataOp` and `handleMsg` are as above; `shutdownOp`
sends on the shutdown channel and `consumeTimeout` is an idle tick of
`run`; none of them touches the mirror. -/
def nodeStep (sendOk : Str → Bool) (writeOk : Bool) (s : Store) (st : NodeState) :
    NodeOp → Option NodeState
  | .onPeer a => some { st with peers := insertPeer a st.peers }
  | .storeDataOp key content =>
    match FileServer.store_data sendOk writeOk s st key content with
    | none => none
    | some (st', _) => some st'
  | .handleMsg buf =>
    match FileServer.handle_message writeOk s st.fs buf with
    | none => none
    | some fs' => some { st with fs := fs' }
  | .shutdownOp => some st
  | .consumeTimeout => some st

/-- A sequence of node operations, stopping at the first panic. -/
def nodeSteps (sendOk : Str → Bool) (writeOk : Bool) (s : Store)
    (ops : List NodeOp) (st : NodeState) : Option NodeState :=
  match ops with
  | [] => some st
  | op :: rest =>
    match nodeStep sendOk writeOk s st op with
    | none => none
    | some st' => nodeSteps sendOk writeOk s rest st'

/-! ## Serialization lemmas -/

theorem decFixedLE_toLE (w : Nat) : ∀ (n : Nat) (rest : Bytes),
    decFixedLE w (toLE w n ++ rest) = some (n % 256 ^ w, rest) := by
  induction w with
  | zero =>
    intro n rest
    simp [toLE, decFixedLE, Nat.mod_one]
  | succ w ih =>
    intro n rest
    have hp : (256 : Nat) ^ (w + 1) = 256 * 256 ^ w := by
      rw [pow_succ, Nat.mul_comm]
    simp only [toLE, List.cons_append, decFixedLE, List.append_eq, ih, hp,
      Nat.mod_mul]

theorem decBytes_encBytes (b : Bytes) (rest : Bytes) (h : b.length < 2 ^ 64) :
    decBytes (encBytes b ++ rest) = some (b, rest) := by
  have h256 : (256 : Nat) ^ 8 = 2 ^ 64 := by norm_num
  have hmod : b.length % 256 ^ 8 = b.length := Nat.mod_eq_of_lt (h256 ▸ h)
  simp only [encBytes, decBytes, List.append_assoc, decFixedLE_toLE, hmod]
  rw [if_pos (by simp)]
  simp [List.take_left, List.drop_left]

theorem decTag_toLE (t : MessageType) (rest : Bytes) :
    decTag (toLE 4 t.tag ++ rest) = some (t, rest) := by
  cases t
  simp [decTag, decFixedLE_toLE, MessageType.tag]

theorem payload_roundtrip (p : Payload)
    (h1 : p.fromAddr.length < 2 ^ 64) (h2 : p.msg.length < 2 ^ 64) :
    Payload.from_buffer p.to_buffer = some p := by
  have hmsg : decBytes (encBytes p.msg) = some (p.msg, []) := by
    have := decBytes_encBytes p.msg [] h2
    simpa using this
  simp only [Payload.to_buffer, Payload.from_buffer, List.append_assoc,
    decBytes_encBytes _ _ h1, decTag_toLE, hmsg]

theorem message_data_roundtrip (d : MessageData)
    (h1 : d.key.length < 2 ^ 64) (h2 : d.data.length < 2 ^ 64) :
    MessageData.from_buffer d.to_buffer = some d := by
  have hdata : decBytes (encBytes d.data) = some (d.data, []) := by
    have := decBytes_encBytes d.data [] h2
    simpa using this
  simp only [MessageData.to_buffer, MessageData.from_buffer,
    decBytes_encBytes _ _ h1, hdata]

/-! ## Behavioural lemmas -/

theorem readAllGo_zero (remaining acc : Bytes) : readAllGo 0 remaining acc = acc := by
  unfold readAllGo
  simp

theorem read_all_eq_take (content : Bytes) :
    read_all_from_stream content = content.take 1024 := by
  rw [read_all_from_stream]
  unfold readAllGo
  by_cases h : (content.take 1024).length = 0
  · rw [dif_pos h]
    exact (List.length_eq_zero.mp h).symm
  · rw [dif_neg h, readAllGo_zero]
    simp

theorem broadcastGo_all_ok (sendOk : Str → Bool) (buf : Bytes) :
    ∀ peers : List Str, (∀ p ∈ peers, sendOk p = true) →
      broadcastGo sendOk buf peers = some (peers.map fun p => (p, buf)) := by
  intro peers
  induction peers with
  | nil =>
    intro _
    simp [broadcastGo]
  | cons p rest ih =>
    intro h
    have hp : sendOk p = true := h p (by simp)
    have hr : ∀ q ∈ rest, sendOk q = true := fun q hq => h q (by simp [hq])
    simp [broadcastGo, hp, ih hr]

theorem tryDialGo_all_fail (dialOk : Nat → Bool) (hfail : ∀ i, dialOk i = false) :
    ∀ (k a backoff dials : Nat) (sleeps : List Nat),
      tryDialGo dialOk (a + k) a backoff dials sleeps =
        (false, dials + k + 1,
          sleeps ++ (List.range k).map fun i => backoff * 2 ^ i) := by
  intro k
  induction k with
  | zero =>
    intro a backoff dials sleeps
    unfold tryDialGo
    simp [hfail]
  | succ k ih =>
    intro a backoff dials sleeps
    unfold tryDialGo
    rw [hfail, if_neg (by simp), if_neg (by omega)]
    have harg : a + (k + 1) = (a + 1) + k := by omega
    rw [harg, ih (a + 1) (backoff * 2) (dials + 1) (sleeps ++ [backoff])]
    have hfun : ((List.range (k + 1)).map fun i => backoff * 2 ^ i) =
        backoff :: (List.range k).map fun i => backoff * 2 * 2 ^ i := by
      rw [List.range_succ_eq_map, List.map_cons, List.map_map]
      simp only [pow_zero, Nat.mul_one, List.cons.injEq, true_and]
      apply List.map_congr_left
      intro i _
      simp only [Function.comp_apply, Nat.succ_eq_add_one, pow_succ]
      ring
    rw [hfun]
    simp only [Prod.mk.injEq, List.append_assoc, List.singleton_append, true_and,
      and_true]
    omega

theorem try_dial_all_fail (dialOk : Nat → Bool) (n : Nat)
    (hfail : ∀ i, dialOk i = false) :
    try_dial dialOk n = (false, n + 1, (List.range n).map fun i => 2 ^ i) := by
  have := tryDialGo_all_fail dialOk hfail n 0 1 0 []
  simpa using this

theorem store_data_all_ok (sendOk : Str → Bool) (s : Store) (st : NodeState)
    (key : Str) (content : Bytes) (h : ∀ p ∈ st.peers, sendOk p = true) :
    FileServer.store_data sendOk true s st key content =
      some ({ st with fs := s.write st.fs key (content.take 1024) },
        st.peers.map fun p =>
          (p, (Payload.mk st.addr .Store
            (MessageData.mk key (content.take 1024)).to_buffer).to_buffer)) := by
  simp [FileServer.store_data, FileServer.broadcast, broadcastGo_all_ok _ _ _ h]

theorem store_data_peers (sendOk : Str → Bool) (writeOk : Bool) (s : Store)
    (st : NodeState) (key : Str) (content : Bytes) (st' : NodeState)
    (sent : List (Str × Bytes))
    (h : FileServer.store_data sendOk writeOk s st key content = some (st', sent)) :
    st'.peers = st.peers := by
  unfold FileServer.store_data at h
  split at h
  · split at h
    · exact absurd h (by simp)
    · simp only [Option.some.injEq, Prod.mk.injEq] at h
      rw [← h.1]
  · simp only [Option.some.injEq, Prod.mk.injEq] at h
    rw [← h.1]

theorem nodeStep_peers_mono (sendOk : Str → Bool) (writeOk : Bool) (s : Store)
    (st : NodeState) (op : NodeOp) (st' : NodeState) (a : Str)
    (h : nodeStep sendOk writeOk s st op = some st') (ha : a ∈ st.peers) :
    a ∈ st'.peers := by
  cases op with
  | onPeer b =>
    simp only [nodeStep, Option.some.injEq] at h
    rw [← h]
    simp only [insertPeer]
    split
    · exact ha
    · exact List.mem_append_left _ ha
  | storeDataOp key content =>
    simp only [nodeStep] at h
    split at h
    · exact absurd h (by simp)
    · rename_i st1 sent heq
      simp only [Option.some.injEq] at h
      rw [← h]
      rw [store_data_peers _ _ _ _ _ _ _ _ heq]
      exact ha
  | handleMsg buf =>
    simp only [nodeStep] at h
    split at h
    · exact absurd h (by simp)
    · simp only [Option.some.injEq] at h
      rw [← h]
      exact ha
  | shutdownOp =>
    simp only [nodeStep, Option.some.injEq] at h
    rw [← h]
    exact ha
  | consumeTimeout =>
    simp only [nodeStep, Option.some.injEq] at h
    rw [← h]
    exact ha

theorem nodeSteps_peers_mono (sendOk : Str → Bool) (writeOk : Bool) (s : Store) :
    ∀ (ops : List NodeOp) (st st' : NodeState) (a : Str),
      a ∈ st.peers → nodeSteps sendOk writeOk s ops st = some st' →
      a ∈ st'.peers := by
  intro ops
  induction ops with
  | nil =>
    intro st st' a ha h
    simp only [nodeSteps, Option.some.injEq] at h
    rw [← h]
    exact ha
  | cons op rest ih =>
    intro st st' a ha h
    simp only [nodeSteps] at h
    cases hs : nodeStep sendOk writeOk s st op with
    | none =>
      rw [hs] at h
      exact absurd h (by simp)
    | some st1 =>
      rw [hs] at h
      exact ih st1 st' a (nodeStep_peers_mono _ _ _ _ _ _ _ hs ha) h

/-! ## Concrete fixtures (used by counterexamples and witnesses) -/

/-- The identity path transform, as in the store's own tests. -/
def idTransform : Str → Str := fun k => k

/-- A store rooted at the one-byte directory name `s` (byte 115). -/
def s0 : Store := ⟨⟨[115], idTransform⟩⟩

/-- An empty filesystem: every open fails with NotFound. -/
def fs0 : Fs := fun _ => .error .notFound

/-- A filesystem where every open fails with PermissionDenied. -/
def fsPerm : Fs := fun _ => .error .permissionDenied

/-- A node listening at address byte `a` (97) with one mirror peer `b` (98). -/
def st0 : NodeState := ⟨[97], [[98]], fs0⟩

/-- Every send succeeds. -/
def sendOkAll : Str → Bool := fun _ => true

/-- The send to the peer at address byte 97 fails; all others succeed. -/
def sendFail97 : Str → Bool := fun p => if p = [97] then false else true

/-- A live transport: accepting, listener open, one open peer, open queue. -/
def tst0 : TransportState := ⟨true, true, [([97], true)], [], true⟩

/-- A node with an empty mirror. -/
def stE : NodeState := ⟨[97], [], fs0⟩

/-- `stE` after the on-peer callback for address 98. -/
def stX : NodeState := ⟨[97], [[98]], fs0⟩

/-- `stX` after the operations in `ops0`. -/
def stY : NodeState := ⟨[97], [[98], [99]], fs0⟩

/-- A run fragment: another peer connects, an idle tick, a shutdown call. -/
def ops0 : List NodeOp := [.onPeer [99], .consumeTimeout, .shutdownOp]

/-- A small concrete envelope. -/
def p0 : Payload := ⟨[104, 105], .Store, [1, 2, 3]⟩

/-- A small concrete store body. -/
def d0 : MessageData := ⟨[107], [9, 8]⟩

/-- A valid serialized envelope carrying a Store body. -/
def storeBuf0 : Bytes :=
  (Payload.mk [97] .Store (MessageData.mk [107] [1]).to_buffer).to_buffer

/-! ## Claims -/

/-- C1: the default decoder is claimed to read bytes until EOF and place
all of them in the payload, even for streams longer than 1024 bytes.
The code disagrees with its own doc comment: `buf.clear()` empties the
read buffer, so every decode returns at most the first 1024 bytes; on a
1025-byte stream the payload is the first 1024 bytes, not the content. -/
theorem C1_default_decoder_truncates :
    (∀ content : Bytes, DefaultDecoder.decode content = content.take 1024) ∧
    DefaultDecoder.decode (List.replicate 1025 1) ≠ List.replicate 1025 1 := by
  refine ⟨fun content => read_all_eq_take content, ?_⟩
  show read_all_from_stream _ ≠ _
  rw [read_all_eq_take, List.take_replicate]
  intro hcontra
  have hlen := congrArg List.length hcontra
  simp only [List.length_replicate] at hlen
  omega

/-- C2 counterexample: publishing a 1025-byte blob stores only its first
1024 bytes, so the bytes written are not the full reader contents. -/
theorem C2_counterexample :
    (FileServer.store_data sendOkAll true s0 st0 [107] (List.replicate 1025 7)).map
        (fun r => r.1.fs (s0.fullpath [107])) =
      some (.ok (List.replicate 1024 7)) ∧
    (List.replicate 1024 7 : Bytes) ≠ List.replicate 1025 7 := by
  constructor
  · have hmin : (List.replicate 1025 7).take 1024 = List.replicate 1024 7 := by
      rw [List.take_replicate, show min 1024 1025 = 1024 from by omega]
    rw [store_data_all_ok sendOkAll s0 st0 [107] _ (fun p _ => rfl), hmin,
      Option.map_some', Option.some_inj]
    show Store.write s0 st0.fs [107] (List.replicate 1024 7)
      (s0.fullpath [107]) = .ok (List.replicate 1024 7)
    rw [Store.write, if_pos rfl]
  · intro hcontra
    have hlen := congrArg List.length hcontra
    simp only [List.length_replicate] at hlen
    omega

/-- C2 (amended): publish (store_data) reads a single chunk of at most
1024 bytes from the reader (one `read` call into a 1024-byte buffer),
writes that chunk to the local store under the key, and broadcasts the
serialized Store envelope built from that chunk to every peer in the
mirror; the bytes written and broadcast equal the reader's full contents
only when they fit in that first chunk. -/
theorem C2_store_data_first_chunk (sendOk : Str → Bool) (s : Store)
    (st : NodeState) (key : Str) (content : Bytes)
    (h : ∀ p ∈ st.peers, sendOk p = true) :
    FileServer.store_data sendOk true s st key content =
      some ({ st with fs := s.write st.fs key (content.take 1024) },
        st.peers.map fun p =>
          (p, (Payload.mk st.addr .Store
            (MessageData.mk key (content.take 1024)).to_buffer).to_buffer)) :=
  store_data_all_ok sendOk s st key content h

/-- C2 witness: a concrete publish of `[1, 2, 3]` under key 107. -/
theorem C2_witness :
    FileServer.store_data sendOkAll true s0 st0 [107] [1, 2, 3] =
      some ({ st0 with fs := s0.write st0.fs [107] (([1, 2, 3] : Bytes).take 1024) },
        st0.peers.map fun p =>
          (p, (Payload.mk st0.addr .Store
            (MessageData.mk [107]
              (([1, 2, 3] : Bytes).take 1024)).to_buffer).to_buffer)) :=
  C2_store_data_first_chunk sendOkAll s0 st0 [107] [1, 2, 3] (fun p _ => rfl)

/-- C3 counterexample: with two peers and the send to the first failing,
the broadcast panics (`none`); the second peer, whose send would have
succeeded, is never reached — the broadcast does not continue. -/
theorem C3_counterexample :
    broadcastGo sendFail97 [5] [[97], [98]] = none ∧ sendFail97 [98] = true := by
  constructor
  · rfl
  · rfl

/-- C3 (amended): if the send to any peer in the mirror fails, the
broadcast panics on `unwrap`: it aborts, and no result is produced for
the remaining peers. -/
theorem C3_broadcast_panics_on_send_error (sendOk : Str → Bool) (buf : Bytes) :
    ∀ peers : List Str, (∃ p ∈ peers, sendOk p = false) →
      broadcastGo sendOk buf peers = none := by
  intro peers
  induction peers with
  | nil =>
    intro h
    exact absurd h (by simp)
  | cons p rest ih =>
    intro h
    obtain ⟨q, hq, hqf⟩ := h
    by_cases hp : sendOk p = true
    · have hqr : q ∈ rest := by
        rcases List.mem_cons.mp hq with hqp | hqr
        · rw [hqp] at hqf
          rw [hqf] at hp
          exact absurd hp (by simp)
        · exact hqr
      simp [broadcastGo, hp, ih ⟨q, hqr, hqf⟩]
    · have hpf : sendOk p = false := by
        cases hval : sendOk p
        · rfl
        · exact absurd hval hp
      simp [broadcastGo, hpf]

/-- C3 witness: a failing first send aborts a concrete broadcast. -/
theorem C3_witness : broadcastGo sendFail97 [5] [[97], [99]] = none :=
  C3_broadcast_panics_on_send_error sendFail97 [5] [[97], [99]] ⟨[97], by simp, rfl⟩

/-- C4 counterexample: a message whose payload (the empty buffer) fails
to deserialize makes `handle_message` panic (`none`) instead of logging,
dropping and continuing. -/
theorem C4_counterexample : FileServer.handle_message true s0 fs0 [] = none := rfl

/-- C4 (amended): when the consumed message's payload fails to
deserialize into an envelope, `handle_message` panics on `unwrap`
(terminating the run loop) rather than logging and dropping; likewise a
`store.write` error while dispatching a Store envelope panics. -/
theorem C4_handle_message_panics (writeOk : Bool) (s : Store) (fs : Fs)
    (buf : Bytes) (h : Payload.from_buffer buf = none ∨ writeOk = false) :
    FileServer.handle_message writeOk s fs buf = none := by
  cases h with
  | inl h => simp [FileServer.handle_message, h]
  | inr h =>
    subst h
    simp only [FileServer.handle_message]
    split
    · rfl
    · split
      · rfl
      · simp

/-- C4 witness: a well-formed Store envelope whose store write fails
still panics the dispatcher. -/
theorem C4_witness : FileServer.handle_message false s0 fs0 storeBuf0 = none :=
  C4_handle_message_panics false s0 fs0 storeBuf0 (Or.inr rfl)

/-- C5 counterexample: with `max_attemps = 1` and every dial failing,
`try_dial` makes 2 dial attempts, exceeding the claimed maximum of 1. -/
theorem C5_counterexample :
    try_dial (fun _ => false) 1 = (false, 2, [1]) ∧ ¬(2 ≤ 1) := by
  constructor
  · have h := try_dial_all_fail (fun _ => false) 1 (fun _ => rfl)
    simpa using h
  · simp

/-- C5 (amended): when every dial fails, `try_dial(addr, n)` makes
exactly n + 1 dial attempts, sleeping between consecutive attempts with
exponential backoff starting at 1 second and doubling after each failure
(sleeps 1, 2, ..., 2^(n-1)), and then returns the last dial error. -/
theorem C5_try_dial_attempts (dialOk : Nat → Bool) (n : Nat)
    (h : ∀ i, dialOk i = false) :
    try_dial dialOk n = (false, n + 1, (List.range n).map fun i => 2 ^ i) :=
  try_dial_all_fail dialOk n h

/-- C5 witness: two permitted retries give three failing attempts with
sleeps of 1 and 2 seconds. -/
theorem C5_witness :
    try_dial (fun _ => false) 2 = (false, 2 + 1, (List.range 2).map fun i => 2 ^ i) :=
  C5_try_dial_attempts (fun _ => false) 2 (fun _ => rfl)

/-- C6 counterexample: on a live transport with an accepting loop, an
open listener and one open peer, `close()` leaves all of them exactly as
they were: it stops nothing, closes nothing and drains nothing. -/
theorem C6_counterexample :
    (TcpTransport.close tst0).1.accepting = true ∧
    (TcpTransport.close tst0).1.listenerOpen = true ∧
    (TcpTransport.close tst0).1.peers = [([97], true)] :=
  ⟨rfl, rfl, rfl⟩

/-- C6 (amended): `TcpTransport::close` is a no-op: it returns `Ok(())`
without stopping the accept loop, closing the listener, closing any peer
in the registry, or draining and closing the message queue. -/
theorem C6_close_is_noop (st : TransportState) :
    TcpTransport.close st = (st, true) := rfl

/-- C7: for all keys k and all byte sequences b (including the empty
sequence), after a successful `store.write(k, b)`, `store.read(k)`
succeeds and returns exactly b. -/
theorem C7_write_read_roundtrip (s : Store) (fs : Fs) (k : Str) (b : Bytes) :
    s.read (s.write fs k b) k = .ok b := by
  simp [Store.read, Store.read_stream, Store.write]

/-- C8: deserializing the serialization of an envelope yields the
original: `Payload::from_buffer(p.to_buffer()) = p` and
`MessageData::from_buffer(d.to_buffer()) = d`, for every value whose
string and byte fields have representable (u64) lengths. -/
theorem C8_envelope_roundtrip (p : Payload) (d : MessageData)
    (h1 : p.fromAddr.length < 2 ^ 64) (h2 : p.msg.length < 2 ^ 64)
    (h3 : d.key.length < 2 ^ 64) (h4 : d.data.length < 2 ^ 64) :
    Payload.from_buffer p.to_buffer = some p ∧
    MessageData.from_buffer d.to_buffer = some d :=
  ⟨payload_roundtrip p h1 h2, message_data_roundtrip d h3 h4⟩

/-- C8 witness: the round trip on a small concrete envelope and body. -/
theorem C8_witness :
    Payload.from_buffer p0.to_buffer = some p0 ∧
    MessageData.from_buffer d0.to_buffer = some d0 :=
  C8_envelope_roundtrip p0 d0 (by norm_num [p0]) (by norm_num [p0])
    (by norm_num [d0]) (by norm_num [d0])

/-- C9: `store.read(k)` (via `read_stream`) returns NotFound whenever
opening the file at `fullpath(k)` fails for any reason, not only when
the file is absent: every open error is collapsed to NotFound. -/
theorem C9_open_errors_collapse_to_not_found (s : Store) (fs : Fs) (k : Str)
    (e : ErrorKind) (h : fs (s.fullpath k) = .error e) :
    s.read fs k = .error .notFound := by
  simp [Store.read, Store.read_stream, h]

/-- C9 witness: a permission-denied open surfaces as NotFound. -/
theorem C9_witness : s0.read fsPerm [107] = .error .notFound :=
  C9_open_errors_collapse_to_not_found s0 fsPerm [107] .permissionDenied rfl

/-- C10: once the on_peer callback inserts a peer's address into the
node-level mirror, no subsequent node operation (publish, dispatch, idle
tick, shutdown, further connections) removes it: the entry remains in
the mirror for the lifetime of the node. -/
theorem C10_mirror_never_shrinks (sendOk : Str → Bool) (writeOk : Bool)
    (s : Store) (st st1 st' : NodeState) (a : Str) (ops : List NodeOp)
    (h1 : nodeStep sendOk writeOk s st (.onPeer a) = some st1)
    (h2 : nodeSteps sendOk writeOk s ops st1 = some st') :
    a ∈ st'.peers := by
  have ha : a ∈ st1.peers := by
    simp only [nodeStep, Option.some.injEq] at h1
    rw [← h1]
    simp only [insertPeer]
    split
    · assumption
    · exact List.mem_append_right _ (by simp)
  exact nodeSteps_peers_mono sendOk writeOk s ops st1 st' a ha h2

/-- C10 witness: peer 98 joins an empty mirror and is still present
after a further connection, an idle tick and a shutdown call. -/
theorem C10_witness : ([98] : Str) ∈ stY.peers :=
  C10_mirror_never_shrinks sendOkAll true s0 stE stX stY [98] ops0 rfl rfl

end DistFS
